import Mathlib

/-!
Shallow embedding of the TodoApp persistence/domain core:
the `TodoItem` pydantic entity (src/domain/models.py), the JSON
repository (src/infrastructure/persistence/json_repository.py) and the
XML repository (src/infrastructure/persistence/xml_repository.py).

Modelling conventions:
* `datetime` values are modelled as `Nat` timestamps; `uuid.UUID` values
  as `Nat`.  `datetime.isoformat`/`fromisoformat` and `str(uuid)`/`UUID(s)`
  are external standard-library inverse pairs; they are modelled by a
  concrete injective string encoder with an exact computable partial
  inverse (`encodeTag`/`decodeTag`).  The concrete character format is
  not load-bearing for any repository behaviour.
* Exceptions are modelled by `Except`/`Option` error results.  Mutating
  repository operations return the final file state together with an
  optional error, so that "raises and leaves the file unchanged" is a
  provable statement about the returned state.
* `datetime.now()` is passed explicitly as a `now : Nat` argument to
  every operation that reads the clock (pydantic validators run on every
  model construction, including deserialization).
-/

namespace TodoApp

/-- Models an injective string encoding with an exact partial inverse,
standing for the stdlib pairs `isoformat`/`fromisoformat` (datetimes)
and `str`/`UUID` (uuids).  The encoded form is always non-empty. -/
def encodeTag (c : Char) (n : Nat) : String :=
  String.mk (List.replicate (n + 1) c)

/-- Computable partial inverse of `encodeTag`. -/
def decodeTag (c : Char) (s : String) : Option Nat :=
  if s.data ≠ [] ∧ s.data.all (fun x => x = c) then some (s.data.length - 1) else none

/-- Models `datetime.isoformat()`. -/
def isoformat (d : Nat) : String := encodeTag 'd' d

/-- Models `datetime.fromisoformat(s)`; `none` is a raised `ValueError`. -/
def fromisoformat (s : String) : Option Nat := decodeTag 'd' s

/-- Models `str(uuid)`. -/
def uuidStr (u : Nat) : String := encodeTag 'u' u

/-- Models `uuid.UUID(s)`; `none` is a raised `ValueError`. -/
def parseUUID (s : String) : Option Nat := decodeTag 'u' s

/-- Python `str.strip()` on the underlying character list: drop
whitespace from both ends. -/
def stripList (l : List Char) : List Char :=
  ((l.dropWhile Char.isWhitespace).reverse.dropWhile Char.isWhitespace).reverse

/-- Models Python `str.strip()`. -/
def pyStrip (s : String) : String := String.mk (stripList s.data)

/-- Models Python `str.lower()`. -/
def pyLower (s : String) : String := String.mk (s.data.map Char.toLower)

/-- The `TodoItem` entity (src/domain/models.py): seven fields. -/
structure TodoItem where
  id : Nat
  title : String
  description : Option String
  due_date : Option Nat
  completed : Bool
  created_at : Nat
  updated_at : Nat
deriving DecidableEq

/-- Pydantic validation pipeline for `title`: the `Field` constraints
(`min_length=1`, `max_length=200`) run on the raw value first, then
the after-validator `validate_title` rejects whitespace-only titles.
Returns the list of error messages (empty means valid). -/
def titleErrors (v : String) : List String :=
  if v.length < 1 then ["String should have at least 1 character"]
  else if 200 < v.length then ["String should have at most 200 characters"]
  else if pyStrip v = "" then ["Title cannot be empty or whitespace only"]
  else []

/-- Pydantic constraint for `description`: `max_length=1000`, skipped for `None`. -/
def descriptionErrors (v : Option String) : List String :=
  match v with
  | some d => if 1000 < d.length then ["String should have at most 1000 characters"] else []
  | none => []

/-- After-validator `validate_due_date`: rejects a due date strictly
before the current wall-clock time; `None` passes. -/
def dueDateErrors (now : Nat) (v : Option Nat) : List String :=
  match v with
  | some d => if d < now then ["Due date cannot be in the past"] else []
  | none => []

/-- Keyword arguments of `TodoItem(**data)`: `none` means the key was
absent, so the pydantic default applies (`uuid4()` for `id`,
`datetime.now()` for the timestamps, `False` for `completed`). -/
structure CtorArgs where
  id : Option Nat := none
  title : String
  description : Option String := none
  due_date : Option Nat := none
  completed : Bool := false
  created_at : Option Nat := none
  updated_at : Option Nat := none

/-- `TodoItem(**data)`: runs all field validators, then the overridden
`__init__` forces `updated_at = created_at` when `updated_at` was not
explicitly supplied.  `freshId` models the `uuid4()` default factory and
`now` the `datetime.now()` default factories and validator clock. -/
def TodoItem.construct (now freshId : Nat) (a : CtorArgs) : Except (List String) TodoItem :=
  let errs := titleErrors a.title ++ descriptionErrors a.description ++
    dueDateErrors now a.due_date
  if errs.isEmpty then
    let created := a.created_at.getD now
    Except.ok
      { id := a.id.getD freshId
        title := pyStrip a.title
        description := a.description
        due_date := a.due_date
        completed := a.completed
        created_at := created
        updated_at :=
          match a.updated_at with
          | some u => u
          | none => created }
  else Except.error errs

/-- `TodoItem.mark_completed`: sets the flag and refreshes `updated_at`. -/
def TodoItem.mark_completed (now : Nat) (t : TodoItem) : TodoItem :=
  { t with completed := true, updated_at := now }

/-- Keyword arguments of `update_details`: outer `none` = argument not
supplied; `some none` for `description`/`due_date` = explicitly supplied
as `None` (clears the field). -/
structure UpdateKwargs where
  title : Option String := none
  description : Option (Option String) := none
  due_date : Option (Option Nat) := none

/-- The merged candidate `TodoItem(**current_data)` built by
`update_details`: the entity's `model_dump` overlaid with the supplied
fields; all seven keys are present, so `updated_at` is explicit. -/
def mergedArgs (t : TodoItem) (kw : UpdateKwargs) : CtorArgs :=
  { id := some t.id
    title := kw.title.getD t.title
    description := kw.description.getD t.description
    due_date := kw.due_date.getD t.due_date
    completed := t.completed
    created_at := some t.created_at
    updated_at := some t.updated_at }

/-- `setattr(self, "title", temp_todo.title)` under
`validate_assignment=True`: re-runs the title pipeline on assignment. -/
def assignTitle (t : TodoItem) (v : String) : TodoItem × Option (List String) :=
  let errs := titleErrors v
  if errs.isEmpty then ({ t with title := pyStrip v }, none) else (t, some errs)

/-- `setattr(self, "description", value)` under `validate_assignment=True`. -/
def assignDescription (t : TodoItem) (v : Option String) : TodoItem × Option (List String) :=
  let errs := descriptionErrors v
  if errs.isEmpty then ({ t with description := v }, none) else (t, some errs)

/-- `setattr(self, "due_date", value)` under `validate_assignment=True`. -/
def assignDueDate (now : Nat) (t : TodoItem) (v : Option Nat) : TodoItem × Option (List String) :=
  let errs := dueDateErrors now v
  if errs.isEmpty then ({ t with due_date := v }, none) else (t, some errs)

/-- Exception propagation between the `setattr` statements of
`update_details`: once a step has raised, later steps do not run and
the entity state at the raise is the final state. -/
def stepBind (s : TodoItem × Option (List String))
    (f : TodoItem → TodoItem × Option (List String)) : TodoItem × Option (List String) :=
  match s with
  | (t, some e) => (t, some e)
  | (t, none) => f t

/-- `TodoItem.update_details`: validates the merged candidate by
constructing a temporary `TodoItem`; on failure the `ValidationError`
is re-raised before any assignment, so the entity is returned unchanged.
On success the supplied fields are assigned one by one (each assignment
re-validated by `validate_assignment`; `title` receives the temporary
entity's trimmed title, the others the raw supplied value), and finally
`updated_at` is refreshed.  The returned pair is (entity state after the
call, raised error if any). -/
def TodoItem.update_details (now : Nat) (t : TodoItem) (kw : UpdateKwargs) :
    TodoItem × Option (List String) :=
  match TodoItem.construct now t.id (mergedArgs t kw) with
  | Except.error e => (t, some e)
  | Except.ok temp =>
    stepBind
      (match kw.title with
       | none => (t, none)
       | some _ => assignTitle t temp.title) (fun t1 =>
    stepBind
      (match kw.description with
       | none => (t1, none)
       | some d => assignDescription t1 d) (fun t2 =>
    stepBind
      (match kw.due_date with
       | none => (t2, none)
       | some d => assignDueDate now t2 d) (fun t3 =>
    ({ t3 with updated_at := now }, none))))

/-- Domain error taxonomy of the repositories (src/domain/exceptions.py),
plus the uncaught `KeyError` that a raw `dict` access can raise outside
any `try` block (in `save`/`update`/`find_by_id` id scans). -/
inductive RepoError where
  | domainError (msg : String)
  | notFound (msg : String)
  | keyError
deriving DecidableEq

/-- One JSON record as loaded by `json.load`: a `dict` whose keys may be
absent.  `description`/`due_date` being JSON `null` and being absent are
both modelled as `none` (the code reads them with `.get`, which returns
`None` in both cases). -/
structure RawRecord where
  id : Option String
  title : Option String
  description : Option String
  due_date : Option String
  completed : Option Bool
  created_at : Option String
  updated_at : Option String
deriving DecidableEq

/-- The JSON storage file as seen by `_load_todos`. -/
inductive JsonContent where
  | unreadable
  | malformed
  | nonList
  | list (records : List RawRecord)
deriving DecidableEq

namespace JSONTodoRepository

/-- `JSONTodoRepository._load_todos`: `OSError` and `json.JSONDecodeError`
become `TodoDomainError`s; valid JSON that is not a list is returned as
the empty list (`data if isinstance(data, list) else []`). -/
def _load_todos : JsonContent → Except RepoError (List RawRecord)
  | JsonContent.unreadable => Except.error (RepoError.domainError "Failed to read JSON file")
  | JsonContent.malformed => Except.error (RepoError.domainError "Invalid JSON format")
  | JsonContent.nonList => Except.ok []
  | JsonContent.list rs => Except.ok rs

/-- `JSONTodoRepository._todo_to_dict`. -/
def _todo_to_dict (t : TodoItem) : RawRecord :=
  { id := some (uuidStr t.id)
    title := some t.title
    description := t.description
    due_date := t.due_date.map isoformat
    completed := some t.completed
    created_at := some (isoformat t.created_at)
    updated_at := some (isoformat t.updated_at) }

/-- A raised-and-caught `KeyError`/`ValueError`/`TypeError` inside
`_dict_to_todo`, re-raised as `TodoDomainError`. -/
def convError : RepoError :=
  RepoError.domainError "Failed to convert data to TodoItem"

/-- `data[key]` access inside the `try` of `_dict_to_todo`. -/
def getReq {α : Type} (v : Option α) : Except RepoError α :=
  match v with
  | some x => Except.ok x
  | none => Except.error convError

/-- `datetime.fromisoformat` inside the `try` of `_dict_to_todo`. -/
def parseDate (s : String) : Except RepoError Nat :=
  match fromisoformat s with
  | some d => Except.ok d
  | none => Except.error convError

/-- `JSONTodoRepository._dict_to_todo`: rebuilds the record's fields and
then constructs a `TodoItem` — which re-runs every pydantic validator
(including the past-due-date check against `now`).  Any
`KeyError`/`ValueError` (pydantic's `ValidationError` included) is
caught and re-raised as a `TodoDomainError`.  The `due_date` entry is
used only if truthy (`if data.get("due_date")`), so an empty string or
`null` both yield `None`. -/
def _dict_to_todo (now : Nat) (r : RawRecord) : Except RepoError TodoItem := do
  let idS ← getReq r.id
  let uid ← (match parseUUID idS with
    | some u => Except.ok u
    | none => Except.error convError)
  let ti ← getReq r.title
  let du ← (match r.due_date with
    | some s => if s = "" then Except.ok none else do
        let d ← parseDate s
        Except.ok (some d)
    | none => Except.ok (none : Option Nat))
  let co ← getReq r.completed
  let caS ← getReq r.created_at
  let ca ← parseDate caS
  let uaS ← getReq r.updated_at
  let ua ← parseDate uaS
  match TodoItem.construct now uid
      { id := some uid, title := ti, description := r.description, due_date := du,
        completed := co, created_at := some ca, updated_at := some ua } with
  | Except.ok t => Except.ok t
  | Except.error _ => Except.error convError

/-- The id-scanning loop of `save`/`update`: replaces the first record
whose `"id"` entry equals the given string; accessing a record with no
`"id"` key raises an uncaught `KeyError`.  Returns the rebuilt list and
whether a replacement happened.  Records after the first match are not
scanned (the loop breaks). -/
def replaceFirst (idS : String) (d : RawRecord) :
    List RawRecord → Except RepoError (List RawRecord × Bool)
  | [] => Except.ok ([], false)
  | r :: rest =>
    match r.id with
    | none => Except.error RepoError.keyError
    | some s =>
      if s = idS then Except.ok (d :: rest, true)
      else do
        let (rest', f) ← replaceFirst idS d rest
        Except.ok (r :: rest', f)

/-- `JSONTodoRepository.save`: upsert by id (replace first match, else
append), then write the whole list back.  Returns (file state after the
call, raised error if any). -/
def save (t : TodoItem) (st : JsonContent) : JsonContent × Option RepoError :=
  match _load_todos st with
  | Except.error e => (st, some e)
  | Except.ok rs =>
    match replaceFirst (uuidStr t.id) (_todo_to_dict t) rs with
    | Except.error e => (st, some e)
    | Except.ok (rs', found) =>
      (JsonContent.list (if found then rs' else rs' ++ [_todo_to_dict t]), none)

/-- The scanning loop of `find_by_id`: returns the first record whose
`"id"` entry equals the target (deserialized), `none` if no match;
a record with no `"id"` key raises an uncaught `KeyError`. -/
def findLoop (now : Nat) (idS : String) :
    List RawRecord → Except RepoError (Option TodoItem)
  | [] => Except.ok none
  | r :: rest =>
    match r.id with
    | none => Except.error RepoError.keyError
    | some s =>
      if s = idS then do
        let t ← _dict_to_todo now r
        Except.ok (some t)
      else findLoop now idS rest

/-- `JSONTodoRepository.find_by_id`. -/
def find_by_id (now : Nat) (tid : Nat) (st : JsonContent) :
    Except RepoError (Option TodoItem) := do
  let rs ← _load_todos st
  findLoop now (uuidStr tid) rs

/-- `JSONTodoRepository.find_all`: deserializes every stored record. -/
def find_all (now : Nat) (st : JsonContent) : Except RepoError (List TodoItem) := do
  let rs ← _load_todos st
  rs.mapM (_dict_to_todo now)

/-- `JSONTodoRepository.update`: like save's replace path, but raises
`TodoNotFoundError` — before any write — when no record matches. -/
def update (t : TodoItem) (st : JsonContent) : JsonContent × Option RepoError :=
  match _load_todos st with
  | Except.error e => (st, some e)
  | Except.ok rs =>
    match replaceFirst (uuidStr t.id) (_todo_to_dict t) rs with
    | Except.error e => (st, some e)
    | Except.ok (rs', found) =>
      if found then (JsonContent.list rs', none)
      else (st, some (RepoError.notFound ("Todo with ID " ++ uuidStr t.id ++ " not found")))

end JSONTodoRepository

/-- One `<todo>` element as parsed by lxml: each field is the text
content of the child element with that tag.  `none` covers both an
absent child element and a present child with no text (lxml returns
`None` for the text of an empty element; `_extract_required_text`
rejects both cases, with messages differing only in wording). -/
structure TodoElem where
  id : Option String
  title : Option String
  completed : Option String
  created_at : Option String
  updated_at : Option String
  description : Option String
  due_date : Option String
deriving DecidableEq

/-- The XML storage file as seen by `_load_xml_tree`: the root's
`<todo>` children in document order, or a read/parse failure. -/
inductive XmlContent where
  | unreadable
  | malformed
  | doc (todos : List TodoElem)
deriving DecidableEq

/-- Models `str(todo.completed).lower()`. -/
def pyBoolStr (b : Bool) : String := if b then "true" else "false"

/-- Serializing an element tree to disk and re-parsing it (every
repository call re-reads the file) turns empty text into absent text:
lxml reports the text of an element with empty content as `None`. -/
def collapseText (v : Option String) : Option String :=
  match v with
  | some s => if s = "" then none else some s
  | none => none

/-- Write-then-reparse normalization of one `<todo>` element. -/
def collapseElem (e : TodoElem) : TodoElem :=
  { id := collapseText e.id
    title := collapseText e.title
    completed := collapseText e.completed
    created_at := collapseText e.created_at
    updated_at := collapseText e.updated_at
    description := collapseText e.description
    due_date := collapseText e.due_date }

namespace XMLTodoRepository

/-- `XMLTodoRepository._load_xml_tree`: `OSError` and
`etree.XMLSyntaxError` become `TodoDomainError`s. -/
def _load_xml_tree : XmlContent → Except RepoError (List TodoElem)
  | XmlContent.unreadable => Except.error (RepoError.domainError "Failed to read XML file")
  | XmlContent.malformed => Except.error (RepoError.domainError "Invalid XML format")
  | XmlContent.doc rs => Except.ok rs

/-- `XMLTodoRepository._save_xml_tree` followed by the re-parse done by
the next operation: text written as the empty string reads back as
absent. -/
def _save_xml_tree (rs : List TodoElem) : XmlContent :=
  XmlContent.doc (rs.map collapseElem)

/-- `XMLTodoRepository._todo_to_xml_element`: one child element per
field; `description`/`due_date` children omitted when the value is
`None`. -/
def _todo_to_xml_element (t : TodoItem) : TodoElem :=
  { id := some (uuidStr t.id)
    title := some t.title
    completed := some (pyBoolStr t.completed)
    created_at := some (isoformat t.created_at)
    updated_at := some (isoformat t.updated_at)
    description := t.description
    due_date := t.due_date.map isoformat }

/-- A raised-and-caught `ValueError`/`TypeError`/`AttributeError`
inside `_xml_element_to_todo`, re-raised as `TodoDomainError`. -/
def xmlConvError : RepoError :=
  RepoError.domainError "Failed to convert XML element to TodoItem"

/-- `_extract_required_text` + the `raise ValueError` on its error
result, as caught by `_xml_element_to_todo`. -/
def extractReq (v : Option String) : Except RepoError String :=
  match v with
  | some s => Except.ok s
  | none => Except.error xmlConvError

/-- `datetime.fromisoformat` inside the `try` of `_xml_element_to_todo`. -/
def parseDateX (s : String) : Except RepoError Nat :=
  match fromisoformat s with
  | some d => Except.ok d
  | none => Except.error xmlConvError

/-- `XMLTodoRepository._xml_element_to_todo`: extracts the five required
texts, the two optional texts, converts (`completed` is compared
case-insensitively against `"true"`, anything else silently becomes
`False`), and constructs a `TodoItem` — re-running every pydantic
validator against `now`.  All `ValueError`s (pydantic's
`ValidationError` included) are re-raised as `TodoDomainError`. -/
def _xml_element_to_todo (now : Nat) (e : TodoElem) : Except RepoError TodoItem := do
  let idS ← extractReq e.id
  let ti ← extractReq e.title
  let coS ← extractReq e.completed
  let caS ← extractReq e.created_at
  let uaS ← extractReq e.updated_at
  let uid ← (match parseUUID idS with
    | some u => Except.ok u
    | none => Except.error xmlConvError)
  let du ← (match e.due_date with
    | some s => do
        let d ← parseDateX s
        Except.ok (some d)
    | none => Except.ok (none : Option Nat))
  let ca ← parseDateX caS
  let ua ← parseDateX uaS
  match TodoItem.construct now uid
      { id := some uid, title := ti, description := e.description, due_date := du,
        completed := decide (pyLower coS = "true"), created_at := some ca, updated_at := some ua } with
  | Except.ok t => Except.ok t
  | Except.error _ => Except.error xmlConvError

/-- `XMLTodoRepository._find_todo_element_by_id` as an index: the first
`<todo>` whose `<id>` child is present and has the target text.  No
exception is possible here (the code tests `id_elem is not None`). -/
def findElemIdx (idS : String) : List TodoElem → Option Nat
  | [] => none
  | e :: rest =>
    if e.id = some idS then some 0 else (findElemIdx idS rest).map (fun i => i + 1)

/-- `XMLTodoRepository.save`: replace the first matching element in
place (`parent.replace` keeps the document position), else append to the
root; then write the tree back. -/
def save (t : TodoItem) (st : XmlContent) : XmlContent × Option RepoError :=
  match _load_xml_tree st with
  | Except.error e => (st, some e)
  | Except.ok rs =>
    let ne := _todo_to_xml_element t
    match findElemIdx (uuidStr t.id) rs with
    | some i => (_save_xml_tree (rs.set i ne), none)
    | none => (_save_xml_tree (rs ++ [ne]), none)

/-- `XMLTodoRepository.find_by_id`. -/
def find_by_id (now : Nat) (tid : Nat) (st : XmlContent) :
    Except RepoError (Option TodoItem) := do
  let rs ← _load_xml_tree st
  match rs.find? (fun e => e.id = some (uuidStr tid)) with
  | some e => do
      let t ← _xml_element_to_todo now e
      Except.ok (some t)
  | none => Except.ok none

/-- `XMLTodoRepository.find_all`: converts every `<todo>` element in
document order. -/
def find_all (now : Nat) (st : XmlContent) : Except RepoError (List TodoItem) := do
  let rs ← _load_xml_tree st
  rs.mapM (_xml_element_to_todo now)

/-- `XMLTodoRepository.update`: raises `TodoNotFoundError` — before any
write — when no element matches; otherwise replaces in place and writes. -/
def update (t : TodoItem) (st : XmlContent) : XmlContent × Option RepoError :=
  match _load_xml_tree st with
  | Except.error e => (st, some e)
  | Except.ok rs =>
    match findElemIdx (uuidStr t.id) rs with
    | none => (st, some (RepoError.notFound ("Todo with ID " ++ uuidStr t.id ++ " not found")))
    | some i => (_save_xml_tree (rs.set i (_todo_to_xml_element t)), none)

end XMLTodoRepository

/-- Validity of an in-memory `TodoItem` at clock `now`: exactly the
facts a successful construction guarantees, while `now` has not yet
passed the due date. -/
def wellFormedB (now : Nat) (t : TodoItem) : Bool :=
  decide (pyStrip t.title = t.title) && decide (t.title ≠ "") &&
    decide (t.title.length ≤ 200) &&
    (match t.description with
     | some d => decide (d.length ≤ 1000)
     | none => true) &&
    (match t.due_date with
     | some d => decide (now ≤ d)
     | none => true)

/-- Propositional form of `wellFormedB`. -/
def WellFormed (now : Nat) (t : TodoItem) : Prop := wellFormedB now t = true

/-- Every record of a JSON storage file has an `"id"` key, so the raw
`dict` accesses in the id scans cannot raise `KeyError`. -/
def StorageOK (rs : List RawRecord) : Prop :=
  rs.all (fun r => r.id.isSome) = true

/-- Number of records whose `"id"` entry equals the given string. -/
def countMatching (idS : String) (rs : List RawRecord) : Nat :=
  rs.countP (fun r => r.id = some idS)

/-- An XML element list is in parse normal form: no text is the empty
string (lxml never produces one when parsing a file). -/
def ParsedOK (rs : List TodoElem) : Prop :=
  rs.map collapseElem = rs

/-- Pure specification of the replace-first-match loop of the JSON
`save`/`update` (used to state what `replaceFirst` computes when no
`KeyError` occurs). -/
def replacePure (idS : String) (d : RawRecord) : List RawRecord → List RawRecord
  | [] => []
  | r :: rest => if r.id = some idS then d :: rest else r :: replacePure idS d rest

/-- Whether some record's `"id"` entry equals the given string. -/
def anyMatch (idS : String) (rs : List RawRecord) : Bool :=
  rs.any (fun r => r.id = some idS)

/-- The record list held by a JSON file state (empty for non-list states). -/
def JsonContent.records : JsonContent → List RawRecord
  | JsonContent.list rs => rs
  | _ => []

/-- The `<todo>` element list held by an XML file state. -/
def XmlContent.todos : XmlContent → List TodoElem
  | XmlContent.doc xs => xs
  | _ => []

/-- Number of `<todo>` elements whose `<id>` text equals the given string. -/
def countElemMatching (idS : String) (xs : List TodoElem) : Nat :=
  xs.countP (fun e => e.id = some idS)

/-- A concrete task used by the witness theorems. -/
def sampleTask : TodoItem :=
  { id := 3, title := "a", description := some "x", due_date := some 9,
    completed := false, created_at := 0, updated_at := 0 }

/-- A second concrete task with the same id and different fields. -/
def sampleTask2 : TodoItem :=
  { id := 3, title := "b", description := none, due_date := none,
    completed := true, created_at := 1, updated_at := 2 }

theorem decodeTag_encodeTag (c : Char) (n : Nat) : decodeTag c (encodeTag c n) = some n := by
  simp [decodeTag, encodeTag, List.all_eq_true]

theorem encodeTag_ne_empty (c : Char) (n : Nat) : encodeTag c n ≠ "" := by
  simp [encodeTag, String.ext_iff]

theorem eq_empty_of_length_zero {s : String} (h : s.length = 0) : s = "" := by
  rcases s with ⟨d⟩
  rw [String.length] at h
  rw [List.length_eq_zero] at h
  subst h
  rfl

theorem length_pos_of_ne_empty {s : String} (h : s ≠ "") : 1 ≤ s.length := by
  by_contra hc
  exact h (eq_empty_of_length_zero (by omega))

theorem ne_empty_of_pyStrip_ne_empty {s : String} (h : pyStrip s ≠ "") : s ≠ "" := by
  intro he
  subst he
  exact h rfl

theorem titleErrors_eq_nil_iff (v : String) :
    titleErrors v = [] ↔ (v.length ≤ 200 ∧ pyStrip v ≠ "") := by
  unfold titleErrors
  split
  case isTrue h =>
    simp only [List.cons_ne_self, false_iff, not_and]
    intro _ hs
    have hv : v = "" := eq_empty_of_length_zero (by omega)
    subst hv
    exact hs rfl
  case isFalse h1 =>
    split
    case isTrue h2 =>
      simp only [List.cons_ne_self, false_iff, not_and]
      intro hle _
      omega
    case isFalse h2 =>
      split
      case isTrue h3 => simp [h3]
      case isFalse h3 => simp [h3]; omega

/-- Unpacking `WellFormed`. -/
theorem wellFormed_iff (now : Nat) (t : TodoItem) :
    WellFormed now t ↔
      (pyStrip t.title = t.title ∧ t.title ≠ "" ∧ t.title.length ≤ 200 ∧
        (∀ d, t.description = some d → d.length ≤ 1000) ∧
        (∀ d, t.due_date = some d → now ≤ d)) := by
  unfold WellFormed wellFormedB
  cases t.description <;> cases t.due_date <;>
    simp [Bool.and_eq_true, decide_eq_true_eq, and_assoc]

theorem titleErrors_of_wf {now : Nat} {t : TodoItem} (h : WellFormed now t) :
    titleErrors t.title = [] := by
  rw [wellFormed_iff] at h
  exact (titleErrors_eq_nil_iff t.title).mpr ⟨h.2.2.1, by rw [h.1]; exact h.2.1⟩

theorem descriptionErrors_of_wf {now : Nat} {t : TodoItem} (h : WellFormed now t) :
    descriptionErrors t.description = [] := by
  rw [wellFormed_iff] at h
  cases hd : t.description with
  | none => rfl
  | some d =>
    have := h.2.2.2.1 d hd
    simp [descriptionErrors]
    omega

theorem dueDateErrors_of_wf {now : Nat} {t : TodoItem} (h : WellFormed now t) :
    dueDateErrors now t.due_date = [] := by
  rw [wellFormed_iff] at h
  cases hd : t.due_date with
  | none => rfl
  | some d =>
    have := h.2.2.2.2 d hd
    simp [dueDateErrors]
    omega

/-- Constructing from the exact fields of a well-formed item (with an
arbitrary `completed` flag) returns the item with that flag. -/
theorem construct_of_wf_completed {now : Nat} {t : TodoItem} (h : WellFormed now t)
    (freshId : Nat) (c : Bool) :
    TodoItem.construct now freshId
      { id := some t.id, title := t.title, description := t.description,
        due_date := t.due_date, completed := c,
        created_at := some t.created_at, updated_at := some t.updated_at } =
      Except.ok { t with completed := c } := by
  unfold TodoItem.construct
  simp only [titleErrors_of_wf h, descriptionErrors_of_wf h, dueDateErrors_of_wf h,
    List.append_nil, List.isEmpty_nil, if_true]
  have hst : pyStrip t.title = t.title := ((wellFormed_iff now t).mp h).1
  simp [hst]

/-- Constructing from the exact fields of a well-formed item returns the
item itself. -/
theorem construct_of_wf {now : Nat} {t : TodoItem} (h : WellFormed now t)
    (freshId : Nat) :
    TodoItem.construct now freshId
      { id := some t.id, title := t.title, description := t.description,
        due_date := t.due_date, completed := t.completed,
        created_at := some t.created_at, updated_at := some t.updated_at } =
      Except.ok t :=
  construct_of_wf_completed h freshId t.completed

/-- On a successful `update_details` call, `updated_at` is refreshed to
`now` and `created_at` is untouched. -/
theorem stepBind_eq_none {s : TodoItem × Option (List String)}
    {f : TodoItem → TodoItem × Option (List String)} {t' : TodoItem}
    (h : stepBind s f = (t', none)) : s.2 = none ∧ f s.1 = (t', none) := by
  rcases s with ⟨a, _ | e⟩
  · exact ⟨rfl, h⟩
  · exact absurd h (by simp [stepBind])

theorem assignTitle_fst_created (t : TodoItem) (v : String) :
    (assignTitle t v).1.created_at = t.created_at := by
  simp only [assignTitle]
  split <;> rfl

theorem assignDescription_fst_created (t : TodoItem) (v : Option String) :
    (assignDescription t v).1.created_at = t.created_at := by
  simp only [assignDescription]
  split <;> rfl

theorem assignDueDate_fst_created (now : Nat) (t : TodoItem) (v : Option Nat) :
    (assignDueDate now t v).1.created_at = t.created_at := by
  simp only [assignDueDate]
  split <;> rfl

theorem update_details_ok_fields {now : Nat} {t t' : TodoItem} {kw : UpdateKwargs}
    (h : TodoItem.update_details now t kw = (t', none)) :
    t'.updated_at = now ∧ t'.created_at = t.created_at := by
  unfold TodoItem.update_details at h
  split at h
  · simp at h
  · rename_i temp heq
    generalize hs1 : (match kw.title with
      | none => (t, none)
      | some _ => assignTitle t temp.title) = s1 at h
    have c1 : s1.1.created_at = t.created_at := by
      rw [← hs1]
      rcases kw.title with _ | v
      · rfl
      · exact assignTitle_fst_created t temp.title
    obtain ⟨e1, h⟩ := stepBind_eq_none h
    generalize hs2 : (match kw.description with
      | none => (s1.1, none)
      | some d => assignDescription s1.1 d) = s2 at h
    have c2 : s2.1.created_at = t.created_at := by
      rw [← hs2]
      rcases kw.description with _ | v
      · exact c1
      · rw [assignDescription_fst_created]
        exact c1
    obtain ⟨e2, h⟩ := stepBind_eq_none h
    generalize hs3 : (match kw.due_date with
      | none => (s2.1, none)
      | some d => assignDueDate now s2.1 d) = s3 at h
    have c3 : s3.1.created_at = t.created_at := by
      rw [← hs3]
      rcases kw.due_date with _ | v
      · exact c2
      · rw [assignDueDate_fst_created]
        exact c2
    obtain ⟨e3, h⟩ := stepBind_eq_none h
    have ht : t' = { s3.1 with updated_at := now } := by
      have := congrArg Prod.fst h
      simpa using this.symm
    rw [ht]
    exact ⟨rfl, c3⟩

/-- C6: whenever the merged candidate of an `update_details` call fails
validation, the call raises that validation error and returns the entity
completely unchanged in every field (including `updated_at`) — the
error is raised before any assignment, so partial application never
occurs. -/
theorem update_details_invalid_leaves_unchanged (now : Nat) (t : TodoItem)
    (kw : UpdateKwargs) (e : List String)
    (h : TodoItem.construct now t.id (mergedArgs t kw) = Except.error e) :
    TodoItem.update_details now t kw = (t, some e) := by
  unfold TodoItem.update_details
  rw [h]

/-- Witness for C6: updating a concrete task with a whitespace-only
title fails and leaves the task unchanged. -/
theorem update_details_invalid_leaves_unchanged_witness :
    TodoItem.update_details 0
      { id := 1, title := "a", description := none, due_date := none,
        completed := false, created_at := 0, updated_at := 0 }
      { title := some "  " } =
      ({ id := 1, title := "a", description := none, due_date := none,
         completed := false, created_at := 0, updated_at := 0 },
       some ["Title cannot be empty or whitespace only"]) :=
  update_details_invalid_leaves_unchanged 0 _ _ _ rfl

/-- C7 (amended): construction forces `updated_at = created_at` whenever
`updated_at` is not explicitly supplied; `mark_completed` and a
successful `update_details` stamp `updated_at` with the current time,
so they preserve `updated_at ≥ created_at` whenever the clock is not
behind `created_at`.  (When `updated_at` is explicitly supplied at
construction, no relation between the two timestamps is enforced — see
the counterexample.) -/
theorem timestamp_invariant_amended :
    (∀ (now freshId : Nat) (a : CtorArgs) (t : TodoItem), a.updated_at = none →
      TodoItem.construct now freshId a = Except.ok t → t.updated_at = t.created_at) ∧
    (∀ (now : Nat) (t : TodoItem), t.created_at ≤ now →
      (TodoItem.mark_completed now t).created_at ≤
        (TodoItem.mark_completed now t).updated_at) ∧
    (∀ (now : Nat) (t t' : TodoItem) (kw : UpdateKwargs), t.created_at ≤ now →
      TodoItem.update_details now t kw = (t', none) →
      t'.created_at ≤ t'.updated_at) := by
  refine ⟨?_, ?_, ?_⟩
  · intro now freshId a t hu h
    unfold TodoItem.construct at h
    simp only [hu] at h
    split at h
    · rw [Except.ok.injEq] at h
      rw [← h]
    · simp at h
  · intro now t h
    simpa [TodoItem.mark_completed] using h
  · intro now t t' kw h hok
    obtain ⟨h1, h2⟩ := update_details_ok_fields hok
    rw [h1, h2]
    exact h

/-- Witness for C7 (amended): all three parts at concrete inputs. -/
theorem timestamp_invariant_amended_witness :
    (({ title := "a", created_at := some 3 } : CtorArgs).updated_at = none ∧
      ({ id := 7, title := "a", description := none, due_date := none,
         completed := false, created_at := 3,
         updated_at := 3 } : TodoItem).updated_at =
        ({ id := 7, title := "a", description := none, due_date := none,
           completed := false, created_at := 3,
           updated_at := 3 } : TodoItem).created_at) ∧
    ((3 : Nat) ≤ 5 ∧
      (TodoItem.mark_completed 5
          { id := 7, title := "a", description := none, due_date := none,
            completed := false, created_at := 3, updated_at := 3 }).created_at ≤
        (TodoItem.mark_completed 5
          { id := 7, title := "a", description := none, due_date := none,
            completed := false, created_at := 3, updated_at := 3 }).updated_at) ∧
    ((3 : Nat) ≤ 5 ∧
      ({ id := 7, title := "b", description := none, due_date := none,
         completed := false, created_at := 3, updated_at := 5 } : TodoItem).created_at ≤
        ({ id := 7, title := "b", description := none, due_date := none,
           completed := false, created_at := 3, updated_at := 5 } : TodoItem).updated_at) :=
  ⟨⟨rfl, timestamp_invariant_amended.1 5 7 { title := "a", created_at := some 3 } _ rfl rfl⟩,
   ⟨by decide, timestamp_invariant_amended.2.1 5
      { id := 7, title := "a", description := none, due_date := none,
        completed := false, created_at := 3, updated_at := 3 } (by decide)⟩,
   ⟨by decide, timestamp_invariant_amended.2.2 5
      { id := 7, title := "a", description := none, due_date := none,
        completed := false, created_at := 3, updated_at := 3 } _
      { title := some "b" } (by decide) rfl⟩⟩

/-- Counterexample for C7 as stated: construction accepts an explicitly
supplied `updated_at` strictly below `created_at`, so not every Task
satisfies `updated_at ≥ created_at`. -/
theorem timestamp_invariant_counterexample :
    TodoItem.construct 0 0
      { title := "a", created_at := some 10, updated_at := some 5 } =
      Except.ok
        { id := 0, title := "a", description := none, due_date := none,
          completed := false, created_at := 10, updated_at := 5 } ∧
    ({ id := 0, title := "a", description := none, due_date := none,
       completed := false, created_at := 10,
       updated_at := 5 } : TodoItem).updated_at <
      ({ id := 0, title := "a", description := none, due_date := none,
         completed := false, created_at := 10,
         updated_at := 5 } : TodoItem).created_at :=
  ⟨rfl, by decide⟩

/-- C8: for the JSON repository, a file holding valid JSON whose top
level is not an array makes `find_all` return the empty list (lenient
recovery), while a file that is not syntactically valid JSON makes
`find_all` raise the format error. -/
theorem json_find_all_shape_and_format (now : Nat) :
    JSONTodoRepository.find_all now JsonContent.nonList = Except.ok [] ∧
    JSONTodoRepository.find_all now JsonContent.malformed =
      Except.error (RepoError.domainError "Invalid JSON format") :=
  ⟨rfl, rfl⟩

/-- C5 (amended): with the other fields valid, construction succeeds
exactly when the raw (untrimmed) title has length at most 200 and the
trimmed title is non-empty: the `min_length`/`max_length` checks run on
the raw value before trimming, the emptiness check runs after trimming,
and an accepted title is stored in trimmed form. -/
theorem title_validation_amended (now freshId : Nat) (a : CtorArgs)
    (hd : descriptionErrors a.description = [])
    (hdd : dueDateErrors now a.due_date = []) :
    ((∃ t, TodoItem.construct now freshId a = Except.ok t) ↔
      (a.title.length ≤ 200 ∧ pyStrip a.title ≠ "")) ∧
    (∀ t, TodoItem.construct now freshId a = Except.ok t → t.title = pyStrip a.title) := by
  unfold TodoItem.construct
  rw [hd, hdd]
  simp only [List.append_nil]
  constructor
  · rw [← titleErrors_eq_nil_iff]
    constructor
    · rintro ⟨t, ht⟩
      rcases hte : titleErrors a.title with _ | ⟨x, xs⟩
      · rfl
      · rw [hte] at ht
        simp at ht
    · intro hnil
      rw [hnil]
      exact ⟨_, rfl⟩
  · intro t ht
    split at ht
    · rw [Except.ok.injEq] at ht
      rw [← ht]
    · simp at ht

/-- Counterexample for C5 as stated: the 201-character title
`"a" ++ 200 spaces` trims to the 1-character title `"a"` (length within
1–200 after trimming), yet construction rejects it, because the
`max_length=200` check runs on the untrimmed value. -/
theorem title_validation_counterexample :
    TodoItem.construct 0 0 { title := String.mk ('a' :: List.replicate 200 ' ') } =
      Except.error ["String should have at most 200 characters"] ∧
    (pyStrip (String.mk ('a' :: List.replicate 200 ' '))).length = 1 ∧
    (String.mk ('a' :: List.replicate 200 ' ')).length = 201 := by
  have h1 : (String.mk ('a' :: List.replicate 200 ' ')).length = 201 := by
    change ('a' :: List.replicate 200 ' ').length = 201
    rw [List.length_cons, List.length_replicate]
  have hrep : ∀ n, List.dropWhile Char.isWhitespace (List.replicate n ' ' ++ ['a']) = ['a'] := by
    intro n
    induction n with
    | zero => decide
    | succ k ih =>
      rw [List.replicate_succ, List.cons_append, List.dropWhile_cons_of_pos (by decide)]
      exact ih
  have hs : stripList ('a' :: List.replicate 200 ' ') = ['a'] := by
    unfold stripList
    rw [List.dropWhile_cons_of_neg (by decide)]
    rw [List.reverse_cons, List.reverse_replicate]
    rw [hrep 200]
    rfl
  have ht : titleErrors (String.mk ('a' :: List.replicate 200 ' ')) =
      ["String should have at most 200 characters"] := by
    unfold titleErrors
    rw [h1]
    rfl
  refine ⟨?_, ?_, h1⟩
  · unfold TodoItem.construct
    dsimp only
    rw [ht]
    rfl
  · change (String.mk (stripList ('a' :: List.replicate 200 ' '))).length = 1
    rw [hs]
    rfl

/-- Witness for C5 (amended): the title `" a "` (other fields absent)
is accepted and stored as its trimmed form. -/
theorem title_validation_amended_witness :
    descriptionErrors (none : Option String) = [] ∧
    dueDateErrors 0 (none : Option Nat) = [] ∧
    (((∃ t, TodoItem.construct 0 0 { title := " a " } = Except.ok t) ↔
        ((" a " : String).length ≤ 200 ∧ pyStrip " a " ≠ "")) ∧
      (∀ t, TodoItem.construct 0 0 { title := " a " } = Except.ok t →
        t.title = pyStrip " a ")) :=
  ⟨rfl, rfl, title_validation_amended 0 0 { title := " a " } rfl rfl⟩

/-- Converting the canonical XML element of a well-formed item — with
the `<completed>` text replaced by an arbitrary string `s` — succeeds
and yields the item with `completed` set to whether `s` lowercases to
`"true"`. -/
theorem xml_elem_convert {now : Nat} {t : TodoItem} (h : WellFormed now t) (s : String) :
    XMLTodoRepository._xml_element_to_todo now
      { id := some (uuidStr t.id), title := some t.title, completed := some s,
        created_at := some (isoformat t.created_at),
        updated_at := some (isoformat t.updated_at),
        description := t.description, due_date := t.due_date.map isoformat } =
      Except.ok { t with completed := decide (pyLower s = "true") } := by
  unfold XMLTodoRepository._xml_element_to_todo
  dsimp only
  rw [show (XMLTodoRepository.extractReq (some (uuidStr t.id)) : Except RepoError String) =
    Except.ok (uuidStr t.id) from rfl]
  simp only [XMLTodoRepository.extractReq, XMLTodoRepository.parseDateX,
    bind, Except.bind]
  rw [show parseUUID (uuidStr t.id) = some t.id from decodeTag_encodeTag 'u' t.id]
  rw [show fromisoformat (isoformat t.created_at) = some t.created_at from
    decodeTag_encodeTag 'd' t.created_at]
  rw [show fromisoformat (isoformat t.updated_at) = some t.updated_at from
    decodeTag_encodeTag 'd' t.updated_at]
  have hc := construct_of_wf_completed h t.id (decide (pyLower s = "true"))
  cases hd : t.due_date with
  | none =>
    simp only [Option.map_none']
    rw [hd] at hc
    rw [hc]
  | some d =>
    simp only [Option.map_some']
    rw [show fromisoformat (isoformat d) = some d from decodeTag_encodeTag 'd' d]
    dsimp only
    rw [hd] at hc
    rw [hc]

/-- C10: an XML record whose `<completed>` element carries non-empty
text other than (case-insensitively) `"true"` deserializes silently —
via both `find_by_id` and `find_all` — into a Task with
`completed = false`; no conversion error is raised. -/
theorem xml_unrecognized_completed_is_false (now : Nat) (t : TodoItem) (s : String)
    (h : WellFormed now t) (hne : s ≠ "") (hnt : pyLower s ≠ "true") :
    XMLTodoRepository.find_by_id now t.id
        (XmlContent.doc
          [{ id := some (uuidStr t.id), title := some t.title, completed := some s,
             created_at := some (isoformat t.created_at),
             updated_at := some (isoformat t.updated_at),
             description := t.description, due_date := t.due_date.map isoformat }]) =
      Except.ok (some { t with completed := false }) ∧
    XMLTodoRepository.find_all now
        (XmlContent.doc
          [{ id := some (uuidStr t.id), title := some t.title, completed := some s,
             created_at := some (isoformat t.created_at),
             updated_at := some (isoformat t.updated_at),
             description := t.description, due_date := t.due_date.map isoformat }]) =
      Except.ok [{ t with completed := false }] := by
  have hconv := xml_elem_convert h s
  have hb : decide (pyLower s = "true") = false := by simp [hnt]
  rw [hb] at hconv
  constructor
  · unfold XMLTodoRepository.find_by_id XMLTodoRepository._load_xml_tree
    simp only [bind, Except.bind]
    rw [List.find?_cons_of_pos _ (by simp)]
    dsimp only
    rw [hconv]
  · unfold XMLTodoRepository.find_all XMLTodoRepository._load_xml_tree
    simp only [bind, Except.bind]
    rw [List.mapM_cons, hconv]
    rfl

/-- C2 (code evaluation at the failing input): a record that was valid
when written at time 3 (due date 5) makes `find_all` and `find_by_id`
raise a `TodoDomainError` when loaded at time 10, because
deserialization reconstructs the pydantic model and its due-date
validator runs against the clock again.  This contradicts the claim
that due dates are validated only on writes. -/
theorem stale_due_date_makes_find_all_raise :
    WellFormed 3
      { id := 0, title := "a", description := none, due_date := some 5,
        completed := false, created_at := 3, updated_at := 3 } ∧
    JSONTodoRepository.find_all 10
      (JsonContent.list
        [JSONTodoRepository._todo_to_dict
          { id := 0, title := "a", description := none, due_date := some 5,
            completed := false, created_at := 3, updated_at := 3 }]) =
      Except.error JSONTodoRepository.convError ∧
    JSONTodoRepository.find_by_id 10 0
      (JsonContent.list
        [JSONTodoRepository._todo_to_dict
          { id := 0, title := "a", description := none, due_date := some 5,
            completed := false, created_at := 3, updated_at := 3 }]) =
      Except.error JSONTodoRepository.convError :=
  ⟨by unfold WellFormed; decide, rfl, rfl⟩

theorem storageOK_cons {r : RawRecord} {rs : List RawRecord} :
    StorageOK (r :: rs) ↔ (r.id.isSome = true ∧ StorageOK rs) := by
  simp [StorageOK]

theorem replacePure_of_any_false {idS : String} {d : RawRecord} :
    ∀ rs : List RawRecord, anyMatch idS rs = false → replacePure idS d rs = rs := by
  intro rs
  induction rs with
  | nil => intro _; rfl
  | cons r rest ih =>
    intro h
    rw [anyMatch, List.any_cons, Bool.or_eq_false_iff] at h
    unfold replacePure
    rw [if_neg (by simpa using h.1), ih h.2]

theorem replaceFirst_eq (idS : String) (d : RawRecord) :
    ∀ rs : List RawRecord, StorageOK rs →
      JSONTodoRepository.replaceFirst idS d rs =
        Except.ok (replacePure idS d rs, anyMatch idS rs) := by
  intro rs
  induction rs with
  | nil => intro _; rfl
  | cons r rest ih =>
    intro hok
    obtain ⟨hr, hrest⟩ := storageOK_cons.mp hok
    obtain ⟨s, hs⟩ := Option.isSome_iff_exists.mp hr
    unfold JSONTodoRepository.replaceFirst replacePure anyMatch
    rw [hs]
    dsimp only
    by_cases hcase : s = idS
    · subst hcase
      simp [hs]
    · rw [if_neg hcase, if_neg (by simpa using hcase)]
      rw [show (JSONTodoRepository.replaceFirst idS d rest : Except RepoError _) =
        Except.ok (replacePure idS d rest, anyMatch idS rest) from ih hrest]
      simp [bind, Except.bind, anyMatch, hs, hcase]

theorem findLoop_eq (now : Nat) (idS : String) :
    ∀ rs : List RawRecord, StorageOK rs →
      JSONTodoRepository.findLoop now idS rs =
        match rs.find? (fun r => r.id = some idS) with
        | some r => Except.map some (JSONTodoRepository._dict_to_todo now r)
        | none => Except.ok none := by
  intro rs
  induction rs with
  | nil => intro _; rfl
  | cons r rest ih =>
    intro hok
    obtain ⟨hr, hrest⟩ := storageOK_cons.mp hok
    obtain ⟨s, hs⟩ := Option.isSome_iff_exists.mp hr
    unfold JSONTodoRepository.findLoop
    rw [hs]
    dsimp only
    by_cases hcase : s = idS
    · subst hcase
      rw [if_pos rfl, List.find?_cons_of_pos _ (by simp [hs])]
      dsimp only
      cases JSONTodoRepository._dict_to_todo now r <;> rfl
    · rw [if_neg hcase, List.find?_cons_of_neg _ (by rw [hs]; simpa using hcase)]
      exact ih hrest

theorem save_eq (t : TodoItem) (rs : List RawRecord) (hok : StorageOK rs) :
    JSONTodoRepository.save t (JsonContent.list rs) =
      (JsonContent.list
        (if anyMatch (uuidStr t.id) rs = true then
          replacePure (uuidStr t.id) (JSONTodoRepository._todo_to_dict t) rs
        else rs ++ [JSONTodoRepository._todo_to_dict t]), none) := by
  unfold JSONTodoRepository.save JSONTodoRepository._load_todos
  dsimp only
  rw [replaceFirst_eq _ _ rs hok]
  cases hfound : anyMatch (uuidStr t.id) rs
  · rw [replacePure_of_any_false rs hfound]
  · rfl

theorem storageOK_replacePure {idS : String} {d : RawRecord} (hd : d.id.isSome = true) :
    ∀ rs : List RawRecord, StorageOK rs → StorageOK (replacePure idS d rs) := by
  intro rs
  induction rs with
  | nil => intro _; exact rfl
  | cons r rest ih =>
    intro hok
    obtain ⟨hr, hrest⟩ := storageOK_cons.mp hok
    unfold replacePure
    split
    · exact storageOK_cons.mpr ⟨hd, hrest⟩
    · exact storageOK_cons.mpr ⟨hr, ih hrest⟩

theorem storageOK_append {d : RawRecord} (hd : d.id.isSome = true)
    (rs : List RawRecord) (hok : StorageOK rs) : StorageOK (rs ++ [d]) := by
  unfold StorageOK at hok ⊢
  rw [List.all_append, hok]
  simpa using hd

theorem find?_replacePure {idS : String} {d : RawRecord} (hd : d.id = some idS) :
    ∀ rs : List RawRecord, anyMatch idS rs = true →
      (replacePure idS d rs).find? (fun r => r.id = some idS) = some d := by
  intro rs
  induction rs with
  | nil => intro h; exact absurd h (by simp [anyMatch])
  | cons r rest ih =>
    intro hany
    unfold replacePure
    by_cases hcase : r.id = some idS
    · rw [if_pos hcase, List.find?_cons_of_pos _ (by simp [hd])]
    · rw [if_neg hcase, List.find?_cons_of_neg _ (by simpa using hcase)]
      rw [anyMatch, List.any_cons] at hany
      apply ih
      rw [anyMatch]
      simpa [hcase] using hany

theorem find?_append_of_any_false {idS : String} {d : RawRecord} (hd : d.id = some idS) :
    ∀ rs : List RawRecord, anyMatch idS rs = false →
      (rs ++ [d]).find? (fun r => r.id = some idS) = some d := by
  intro rs
  induction rs with
  | nil => intro _; exact List.find?_cons_of_pos _ (by simp [hd])
  | cons r rest ih =>
    intro hany
    rw [anyMatch, List.any_cons, Bool.or_eq_false_iff] at hany
    rw [List.cons_append, List.find?_cons_of_neg _ (by simpa using hany.1)]
    exact ih hany.2

/-- Deserializing the canonical JSON record of a well-formed item gives
the item back. -/
theorem dict_to_todo_roundtrip {now : Nat} {t : TodoItem} (h : WellFormed now t) :
    JSONTodoRepository._dict_to_todo now (JSONTodoRepository._todo_to_dict t) =
      Except.ok t := by
  unfold JSONTodoRepository._dict_to_todo JSONTodoRepository._todo_to_dict
  dsimp only
  simp only [JSONTodoRepository.getReq, JSONTodoRepository.parseDate, bind, Except.bind]
  rw [show parseUUID (uuidStr t.id) = some t.id from decodeTag_encodeTag 'u' t.id]
  rw [show fromisoformat (isoformat t.created_at) = some t.created_at from
    decodeTag_encodeTag 'd' t.created_at]
  rw [show fromisoformat (isoformat t.updated_at) = some t.updated_at from
    decodeTag_encodeTag 'd' t.updated_at]
  have hc := construct_of_wf h t.id
  cases hd : t.due_date with
  | none =>
    simp only [Option.map_none']
    rw [hd] at hc
    rw [hc]
  | some d =>
    simp only [Option.map_some']
    rw [if_neg (show isoformat d ≠ "" from encodeTag_ne_empty 'd' d)]
    rw [show fromisoformat (isoformat d) = some d from decodeTag_encodeTag 'd' d]
    dsimp only
    rw [hd] at hc
    rw [hc]

theorem pyBoolStr_ne_empty (b : Bool) : pyBoolStr b ≠ "" := by
  cases b <;> decide

theorem pyLower_pyBoolStr (b : Bool) : decide (pyLower (pyBoolStr b) = "true") = b := by
  cases b <;> decide

theorem collapseText_some_ne {s : String} (h : s ≠ "") : collapseText (some s) = some s := by
  unfold collapseText
  dsimp only
  rw [if_neg h]

theorem collapseText_opt {v : Option String} (h : v ≠ some "") : collapseText v = v := by
  cases v with
  | none => rfl
  | some s =>
    exact collapseText_some_ne (by intro he; exact h (by rw [he]))

/-- Writing the canonical element of a well-formed item whose
description is not the empty string and re-parsing it is the identity. -/
theorem collapse_canonical {now : Nat} {t : TodoItem} (h : WellFormed now t)
    (hdesc : t.description ≠ some "") :
    collapseElem (XMLTodoRepository._todo_to_xml_element t) =
      { id := some (uuidStr t.id), title := some t.title,
        completed := some (pyBoolStr t.completed),
        created_at := some (isoformat t.created_at),
        updated_at := some (isoformat t.updated_at),
        description := t.description, due_date := t.due_date.map isoformat } := by
  have htitle : t.title ≠ "" := ((wellFormed_iff now t).mp h).2.1
  have hdue : t.due_date.map isoformat ≠ some "" := by
    cases t.due_date with
    | none => simp
    | some d => simpa [isoformat] using encodeTag_ne_empty 'd' d
  unfold collapseElem XMLTodoRepository._todo_to_xml_element
  dsimp only
  rw [collapseText_some_ne (show uuidStr t.id ≠ "" from encodeTag_ne_empty 'u' t.id),
    collapseText_some_ne htitle,
    collapseText_some_ne (pyBoolStr_ne_empty t.completed),
    collapseText_some_ne (show isoformat t.created_at ≠ "" from
      encodeTag_ne_empty 'd' t.created_at),
    collapseText_some_ne (show isoformat t.updated_at ≠ "" from
      encodeTag_ne_empty 'd' t.updated_at),
    collapseText_opt hdesc, collapseText_opt hdue]

theorem collapseElem_id_match {idS : String} (hid : idS ≠ "") (e : TodoElem) :
    ((collapseElem e).id = some idS) ↔ (e.id = some idS) := by
  show (collapseText e.id = some idS) ↔ _
  cases he : e.id with
  | none => simp [collapseText]
  | some s =>
    by_cases hs : s = ""
    · subst hs
      simp [collapseText]
      intro heq
      exact hid heq.symm
    · rw [collapseText_some_ne hs]

/-- After a `save` over any XML document, the first element matching the
saved id is the (written and re-parsed) new element. -/
theorem xml_find_after_save {idS : String} (hid : idS ≠ "") {ne : TodoElem}
    (hne : ne.id = some idS) :
    ∀ xs : List TodoElem,
      (List.map collapseElem
        (match XMLTodoRepository.findElemIdx idS xs with
          | some i => xs.set i ne
          | none => xs ++ [ne])).find?
          (fun e => e.id = some idS) = some (collapseElem ne) := by
  have hcne : ((collapseElem ne).id = some idS) := (collapseElem_id_match hid ne).mpr hne
  intro xs
  induction xs with
  | nil =>
    simp only [XMLTodoRepository.findElemIdx]
    exact List.find?_cons_of_pos _ (by simp [hcne])
  | cons x xs ih =>
    simp only [XMLTodoRepository.findElemIdx]
    by_cases hx : x.id = some idS
    · rw [if_pos hx]
      dsimp only
      rw [List.set_cons_zero, List.map_cons]
      exact List.find?_cons_of_pos _ (by simp [hcne])
    · rw [if_neg hx]
      have hcx : ¬((collapseElem x).id = some idS) :=
        fun hcontra => hx ((collapseElem_id_match hid x).mp hcontra)
      cases hfi : XMLTodoRepository.findElemIdx idS xs with
      | some j =>
        dsimp only [Option.map]
        rw [List.set_cons_succ, List.map_cons,
          List.find?_cons_of_neg _ (by simp [hcx])]
        rw [hfi] at ih
        exact ih
      | none =>
        dsimp only [Option.map]
        rw [List.cons_append, List.map_cons,
          List.find?_cons_of_neg _ (by simp [hcx])]
        rw [hfi] at ih
        exact ih

theorem xml_save_eq (t : TodoItem) (xs : List TodoElem) :
    XMLTodoRepository.save t (XmlContent.doc xs) =
      (XmlContent.doc ((match XMLTodoRepository.findElemIdx (uuidStr t.id) xs with
        | some i => xs.set i (XMLTodoRepository._todo_to_xml_element t)
        | none => xs ++ [XMLTodoRepository._todo_to_xml_element t]).map collapseElem),
       none) := by
  unfold XMLTodoRepository.save XMLTodoRepository._load_xml_tree
    XMLTodoRepository._save_xml_tree
  dsimp only
  cases hfi : XMLTodoRepository.findElemIdx (uuidStr t.id) xs <;> rfl

/-- JSON half of the save/find round trip. -/
theorem json_save_find {now : Nat} {t : TodoItem} (h : WellFormed now t)
    (rs : List RawRecord) (hok : StorageOK rs) :
    JSONTodoRepository.find_by_id now t.id
        (JSONTodoRepository.save t (JsonContent.list rs)).1 = Except.ok (some t) ∧
    (JSONTodoRepository.save t (JsonContent.list rs)).2 = none := by
  rw [save_eq t rs hok]
  refine ⟨?_, rfl⟩
  have hid : (JSONTodoRepository._todo_to_dict t).id = some (uuidStr t.id) := rfl
  have hok' : StorageOK (if anyMatch (uuidStr t.id) rs = true then
      replacePure (uuidStr t.id) (JSONTodoRepository._todo_to_dict t) rs
    else rs ++ [JSONTodoRepository._todo_to_dict t]) := by
    cases hfound : anyMatch (uuidStr t.id) rs
    · simpa using storageOK_append (by rw [hid]; rfl) rs hok
    · simpa using storageOK_replacePure (by rw [hid]; rfl) rs hok
  unfold JSONTodoRepository.find_by_id JSONTodoRepository._load_todos
  dsimp only
  rw [show (bind (Except.ok (if anyMatch (uuidStr t.id) rs = true then
      replacePure (uuidStr t.id) (JSONTodoRepository._todo_to_dict t) rs
    else rs ++ [JSONTodoRepository._todo_to_dict t]) : Except RepoError _)
      (JSONTodoRepository.findLoop now (uuidStr t.id))) =
    JSONTodoRepository.findLoop now (uuidStr t.id)
      (if anyMatch (uuidStr t.id) rs = true then
        replacePure (uuidStr t.id) (JSONTodoRepository._todo_to_dict t) rs
      else rs ++ [JSONTodoRepository._todo_to_dict t]) from rfl]
  rw [findLoop_eq now (uuidStr t.id) _ hok']
  cases hfound : anyMatch (uuidStr t.id) rs
  · simp only [Bool.false_eq_true, if_false]
    rw [find?_append_of_any_false hid rs hfound]
    dsimp only
    rw [dict_to_todo_roundtrip h]
    rfl
  · simp only [if_true]
    rw [find?_replacePure hid rs hfound]
    dsimp only
    rw [dict_to_todo_roundtrip h]
    rfl

/-- XML half of the save/find round trip (needs a non-empty-string
description: the empty string does not survive serialization). -/
theorem xml_save_find {now : Nat} {t : TodoItem} (h : WellFormed now t)
    (hdesc : t.description ≠ some "") (xs : List TodoElem) :
    XMLTodoRepository.find_by_id now t.id
        (XMLTodoRepository.save t (XmlContent.doc xs)).1 = Except.ok (some t) ∧
    (XMLTodoRepository.save t (XmlContent.doc xs)).2 = none := by
  rw [xml_save_eq t xs]
  refine ⟨?_, rfl⟩
  unfold XMLTodoRepository.find_by_id XMLTodoRepository._load_xml_tree
  dsimp only
  simp only [bind, Except.bind]
  rw [xml_find_after_save (show uuidStr t.id ≠ "" from encodeTag_ne_empty 'u' t.id) rfl xs]
  dsimp only
  rw [collapse_canonical h hdesc]
  rw [xml_elem_convert h (pyBoolStr t.completed)]
  rw [pyLower_pyBoolStr t.completed]

/-- C1 (amended): `save(t)` followed by `find_by_id(t.id)` over the same
storage returns a Task equal to `t` in all seven fields — unconditionally
for the JSON backend; for the XML backend provided `t.description` is not
the empty string (an empty-string description is written as an empty
element, which reads back as absent — see the counterexample). -/
theorem save_find_roundtrip_amended (now : Nat) (t : TodoItem) (h : WellFormed now t)
    (rs : List RawRecord) (hok : StorageOK rs) (xs : List TodoElem) :
    (JSONTodoRepository.find_by_id now t.id
        (JSONTodoRepository.save t (JsonContent.list rs)).1 = Except.ok (some t) ∧
      (JSONTodoRepository.save t (JsonContent.list rs)).2 = none) ∧
    (t.description ≠ some "" →
      (XMLTodoRepository.find_by_id now t.id
          (XMLTodoRepository.save t (XmlContent.doc xs)).1 = Except.ok (some t) ∧
        (XMLTodoRepository.save t (XmlContent.doc xs)).2 = none)) :=
  ⟨json_save_find h rs hok, fun hdesc => xml_save_find h hdesc xs⟩

/-- Counterexample for C1 as stated: a task with the (valid) empty-string
description saved to the XML backend reads back with an absent
description, so the reconstructed task differs from the saved one. -/
theorem save_find_roundtrip_counterexample :
    XMLTodoRepository.find_by_id 0 0
        (XMLTodoRepository.save
          { id := 0, title := "a", description := some "", due_date := none,
            completed := false, created_at := 0, updated_at := 0 }
          (XmlContent.doc [])).1 =
      Except.ok (some
        { id := 0, title := "a", description := none, due_date := none,
          completed := false, created_at := 0, updated_at := 0 }) ∧
    ({ id := 0, title := "a", description := none, due_date := none,
       completed := false, created_at := 0, updated_at := 0 } : TodoItem) ≠
      { id := 0, title := "a", description := some "", due_date := none,
        completed := false, created_at := 0, updated_at := 0 } :=
  ⟨rfl, by decide⟩

/-- Witness for C1 (amended) at a concrete task and empty storage. -/
theorem save_find_roundtrip_amended_witness :
    WellFormed 0 sampleTask ∧ StorageOK [] ∧
    ((JSONTodoRepository.find_by_id 0 sampleTask.id
        (JSONTodoRepository.save sampleTask (JsonContent.list [])).1 =
        Except.ok (some sampleTask) ∧
      (JSONTodoRepository.save sampleTask (JsonContent.list [])).2 = none) ∧
    (sampleTask.description ≠ some "" →
      (XMLTodoRepository.find_by_id 0 sampleTask.id
          (XMLTodoRepository.save sampleTask (XmlContent.doc [])).1 =
          Except.ok (some sampleTask) ∧
        (XMLTodoRepository.save sampleTask (XmlContent.doc [])).2 = none))) :=
  ⟨by unfold WellFormed; decide, rfl,
    save_find_roundtrip_amended 0 sampleTask (by unfold WellFormed; decide) [] rfl []⟩

theorem findElemIdx_eq_none {idS : String} :
    ∀ xs : List TodoElem, (∀ e ∈ xs, ¬(e.id = some idS)) →
      XMLTodoRepository.findElemIdx idS xs = none := by
  intro xs
  induction xs with
  | nil => intro _; rfl
  | cons x xs ih =>
    intro h
    unfold XMLTodoRepository.findElemIdx
    rw [if_neg (h x (by simp)), ih (fun e he => h e (by simp [he]))]
    rfl

theorem anyMatch_eq_false {idS : String} {rs : List RawRecord}
    (h : ∀ r ∈ rs, ¬(r.id = some idS)) : anyMatch idS rs = false := by
  rw [anyMatch, List.any_eq_false]
  intro r hr
  simpa using h r hr

/-- C3: `update` for an id with no stored record raises the not-found
error and returns the storage completely unchanged (same record count
and contents, no insert fallback), for both the JSON and the XML
repository. -/
theorem update_missing_raises_not_found (t : TodoItem) (rs : List RawRecord)
    (hok : StorageOK rs) (hjson : ∀ r ∈ rs, ¬(r.id = some (uuidStr t.id)))
    (xs : List TodoElem) (hxml : ∀ e ∈ xs, ¬(e.id = some (uuidStr t.id))) :
    JSONTodoRepository.update t (JsonContent.list rs) =
      (JsonContent.list rs,
        some (RepoError.notFound ("Todo with ID " ++ uuidStr t.id ++ " not found"))) ∧
    XMLTodoRepository.update t (XmlContent.doc xs) =
      (XmlContent.doc xs,
        some (RepoError.notFound ("Todo with ID " ++ uuidStr t.id ++ " not found"))) := by
  constructor
  · unfold JSONTodoRepository.update JSONTodoRepository._load_todos
    dsimp only
    rw [replaceFirst_eq _ _ rs hok]
    dsimp only
    rw [anyMatch_eq_false hjson]
    rfl
  · unfold XMLTodoRepository.update XMLTodoRepository._load_xml_tree
    dsimp only
    rw [findElemIdx_eq_none xs hxml]

/-- Witness for C3: updating an id 0 task against empty JSON and XML
storages. -/
theorem update_missing_raises_not_found_witness :
    JSONTodoRepository.update
      { id := 0, title := "a", description := none, due_date := none,
        completed := false, created_at := 0, updated_at := 0 }
      (JsonContent.list []) =
      (JsonContent.list [],
        some (RepoError.notFound ("Todo with ID " ++ uuidStr 0 ++ " not found"))) ∧
    XMLTodoRepository.update
      { id := 0, title := "a", description := none, due_date := none,
        completed := false, created_at := 0, updated_at := 0 }
      (XmlContent.doc []) =
      (XmlContent.doc [],
        some (RepoError.notFound ("Todo with ID " ++ uuidStr 0 ++ " not found"))) :=
  update_missing_raises_not_found
    { id := 0, title := "a", description := none, due_date := none,
      completed := false, created_at := 0, updated_at := 0 }
    [] rfl (by simp) [] (by simp)

theorem anyMatch_false_count {idS : String} (rs : List RawRecord)
    (h : anyMatch idS rs = false) : countMatching idS rs = 0 := by
  unfold countMatching
  rw [List.countP_eq_zero]
  rw [anyMatch, List.any_eq_false] at h
  exact h

theorem count_replacePure {idS : String} {d : RawRecord} (hd : d.id = some idS) :
    ∀ rs : List RawRecord, anyMatch idS rs = true → countMatching idS rs ≤ 1 →
      countMatching idS (replacePure idS d rs) = 1 ∧
      ∀ r ∈ replacePure idS d rs, r.id = some idS → r = d := by
  intro rs
  induction rs with
  | nil => intro h; exact absurd h (by simp [anyMatch])
  | cons x xs ih =>
    intro hany hcount
    unfold replacePure
    by_cases hx : x.id = some idS
    · rw [if_pos hx]
      have hxs0 : countMatching idS xs = 0 := by
        unfold countMatching at hcount ⊢
        rw [List.countP_cons] at hcount
        simp [hx] at hcount
        rw [List.countP_eq_zero]
        intro a ha
        simpa using hcount a ha
      have hnomem : ∀ r ∈ xs, ¬(r.id = some idS) := by
        intro r hr
        have := List.countP_eq_zero.mp hxs0 r hr
        simpa using this
      constructor
      · unfold countMatching at hxs0 ⊢
        rw [List.countP_cons, hxs0]
        simp [hd]
      · intro r hr hrid
        rcases List.mem_cons.mp hr with rfl | hr'
        · rfl
        · exact absurd hrid (hnomem r hr')
    · rw [if_neg hx]
      have hany' : anyMatch idS xs = true := by
        rw [anyMatch, List.any_cons, Bool.or_eq_true] at hany
        rcases hany with h1 | h2
        · exact absurd (by simpa using h1) hx
        · rw [anyMatch]
          exact h2
      have hcount' : countMatching idS xs ≤ 1 := by
        unfold countMatching at hcount ⊢
        rw [List.countP_cons] at hcount
        simpa [hx] using hcount
      obtain ⟨h1, h2⟩ := ih hany' hcount'
      constructor
      · unfold countMatching at h1 ⊢
        rw [List.countP_cons]
        simp [hx, h1]
      · intro r hr hrid
        rcases List.mem_cons.mp hr with rfl | hr'
        · exact absurd hrid hx
        · exact h2 r hr' hrid

theorem count_append {idS : String} {d : RawRecord} (hd : d.id = some idS)
    (rs : List RawRecord) (hnone : anyMatch idS rs = false) :
    countMatching idS (rs ++ [d]) = 1 ∧
    ∀ r ∈ rs ++ [d], r.id = some idS → r = d := by
  have h0 := anyMatch_false_count rs hnone
  have hnomem : ∀ r ∈ rs, ¬(r.id = some idS) := by
    intro r hr
    have := List.countP_eq_zero.mp h0 r hr
    simpa using this
  constructor
  · unfold countMatching at h0 ⊢
    rw [List.countP_append, h0]
    simp [hd]
  · intro r hr hrid
    rcases List.mem_append.mp hr with hr' | hr'
    · exact absurd hrid (hnomem r hr')
    · simpa using hr'

/-- State shape after one JSON `save`: it succeeds and the file holds
exactly one record with the saved id, namely the task's serialization. -/
theorem json_save_state (t : TodoItem) (rs : List RawRecord) (hok : StorageOK rs)
    (hcount : countMatching (uuidStr t.id) rs ≤ 1) :
    (JSONTodoRepository.save t (JsonContent.list rs)).2 = none ∧
    ∃ L, (JSONTodoRepository.save t (JsonContent.list rs)).1 = JsonContent.list L ∧
      StorageOK L ∧ countMatching (uuidStr t.id) L = 1 ∧
      ∀ r ∈ L, r.id = some (uuidStr t.id) → r = JSONTodoRepository._todo_to_dict t := by
  rw [save_eq t rs hok]
  have hd : (JSONTodoRepository._todo_to_dict t).id = some (uuidStr t.id) := rfl
  refine ⟨rfl, _, rfl, ?_, ?_, ?_⟩ <;>
    cases hfound : anyMatch (uuidStr t.id) rs <;>
      simp only [Bool.false_eq_true, if_false, if_true]
  · exact storageOK_append (by rw [hd]; rfl) rs hok
  · exact storageOK_replacePure (by rw [hd]; rfl) rs hok
  · exact (count_append hd rs hfound).1
  · exact (count_replacePure hd rs hfound hcount).1
  · exact (count_append hd rs hfound).2
  · exact (count_replacePure hd rs hfound hcount).2

theorem countElem_map_collapse {idS : String} (hid : idS ≠ "") (l : List TodoElem) :
    countElemMatching idS (l.map collapseElem) = countElemMatching idS l := by
  unfold countElemMatching
  rw [List.countP_map]
  apply List.countP_congr
  intro e _
  simp only [Function.comp, decide_eq_true_eq]
  exact collapseElem_id_match hid e

theorem xml_upsert_count {idS : String} {ne : TodoElem} (hne : ne.id = some idS) :
    ∀ xs : List TodoElem, countElemMatching idS xs ≤ 1 →
      countElemMatching idS (match XMLTodoRepository.findElemIdx idS xs with
        | some i => xs.set i ne
        | none => xs ++ [ne]) = 1 ∧
      ∀ e ∈ (match XMLTodoRepository.findElemIdx idS xs with
        | some i => xs.set i ne
        | none => xs ++ [ne]), e.id = some idS → e = ne := by
  intro xs
  induction xs with
  | nil =>
    intro _
    constructor
    · simp [XMLTodoRepository.findElemIdx, countElemMatching, hne]
    · intro e he hid
      simpa [XMLTodoRepository.findElemIdx] using he
  | cons x xs ih =>
    intro hcount
    simp only [XMLTodoRepository.findElemIdx]
    by_cases hx : x.id = some idS
    · rw [if_pos hx]
      dsimp only
      rw [List.set_cons_zero]
      have hxs0 : countElemMatching idS xs = 0 := by
        unfold countElemMatching at hcount ⊢
        rw [List.countP_cons] at hcount
        simp [hx] at hcount
        rw [List.countP_eq_zero]
        intro a ha
        simpa using hcount a ha
      constructor
      · unfold countElemMatching at hxs0 ⊢
        rw [List.countP_cons, hxs0]
        simp [hne]
      · intro e he hid
        rcases List.mem_cons.mp he with rfl | he'
        · rfl
        · exact absurd hid (by simpa using List.countP_eq_zero.mp hxs0 e he')
    · rw [if_neg hx]
      have hcount' : countElemMatching idS xs ≤ 1 := by
        unfold countElemMatching at hcount ⊢
        rw [List.countP_cons] at hcount
        simpa [hx] using hcount
      obtain ⟨h1, h2⟩ := ih hcount'
      cases hfi : XMLTodoRepository.findElemIdx idS xs with
      | some j =>
        rw [hfi] at h1 h2
        dsimp only [Option.map]
        rw [List.set_cons_succ]
        constructor
        · unfold countElemMatching at h1 ⊢
          rw [List.countP_cons]
          simp [hx, h1]
        · intro e he hid
          rcases List.mem_cons.mp he with rfl | he'
          · exact absurd hid hx
          · exact h2 e he' hid
      | none =>
        rw [hfi] at h1 h2
        dsimp only [Option.map]
        rw [List.cons_append]
        constructor
        · unfold countElemMatching at h1 ⊢
          rw [List.countP_cons]
          simp [hx, h1]
        · intro e he hid
          rcases List.mem_cons.mp he with rfl | he'
          · exact absurd hid hx
          · exact h2 e he' hid

/-- State shape after one XML `save`: it succeeds and the written
document holds exactly one element with the saved id, namely the task's
serialized (and re-parsed) element. -/
theorem xml_save_state (t : TodoItem) (xs : List TodoElem)
    (hcount : countElemMatching (uuidStr t.id) xs ≤ 1) :
    (XMLTodoRepository.save t (XmlContent.doc xs)).2 = none ∧
    ∃ L, (XMLTodoRepository.save t (XmlContent.doc xs)).1 = XmlContent.doc L ∧
      countElemMatching (uuidStr t.id) L = 1 ∧
      ∀ e ∈ L, e.id = some (uuidStr t.id) →
        e = collapseElem (XMLTodoRepository._todo_to_xml_element t) := by
  rw [xml_save_eq t xs]
  have hid : (uuidStr t.id) ≠ "" := encodeTag_ne_empty 'u' t.id
  have hne : (XMLTodoRepository._todo_to_xml_element t).id = some (uuidStr t.id) := rfl
  obtain ⟨h1, h2⟩ := xml_upsert_count hne xs hcount
  refine ⟨rfl, _, rfl, ?_, ?_⟩
  · rw [countElem_map_collapse hid]
    exact h1
  · intro e he hide
    obtain ⟨x, hx, rfl⟩ := List.mem_map.mp he
    have hxm : x.id = some (uuidStr t.id) := (collapseElem_id_match hid x).mp hide
    rw [h2 x hx hxm]

/-- C4: `save(A)` then `save(A2)` with `A2.id = A.id` (over a storage
holding at most one record with that id) raises no error and leaves
exactly one stored record with that id, carrying `A2`'s serialized field
values, for both the JSON and the XML repository. -/
theorem save_upsert (A A2 : TodoItem) (hAA : A2.id = A.id)
    (rs : List RawRecord) (hok : StorageOK rs)
    (hcount : countMatching (uuidStr A.id) rs ≤ 1)
    (xs : List TodoElem) (hxcount : countElemMatching (uuidStr A.id) xs ≤ 1) :
    ((JSONTodoRepository.save A (JsonContent.list rs)).2 = none ∧
      (JSONTodoRepository.save A2
        (JSONTodoRepository.save A (JsonContent.list rs)).1).2 = none ∧
      countMatching (uuidStr A.id)
        ((JSONTodoRepository.save A2
          (JSONTodoRepository.save A (JsonContent.list rs)).1).1).records = 1 ∧
      ∀ r ∈ ((JSONTodoRepository.save A2
          (JSONTodoRepository.save A (JsonContent.list rs)).1).1).records,
        r.id = some (uuidStr A.id) → r = JSONTodoRepository._todo_to_dict A2) ∧
    ((XMLTodoRepository.save A (XmlContent.doc xs)).2 = none ∧
      (XMLTodoRepository.save A2
        (XMLTodoRepository.save A (XmlContent.doc xs)).1).2 = none ∧
      countElemMatching (uuidStr A.id)
        ((XMLTodoRepository.save A2
          (XMLTodoRepository.save A (XmlContent.doc xs)).1).1).todos = 1 ∧
      ∀ e ∈ ((XMLTodoRepository.save A2
          (XMLTodoRepository.save A (XmlContent.doc xs)).1).1).todos,
        e.id = some (uuidStr A.id) →
          e = collapseElem (XMLTodoRepository._todo_to_xml_element A2)) := by
  have hidq : uuidStr A2.id = uuidStr A.id := by rw [hAA]
  constructor
  · obtain ⟨hs1, L1, hL1, hokL1, hcnt1, hmem1⟩ := json_save_state A rs hok hcount
    obtain ⟨hs2, L2, hL2, hokL2, hcnt2, hmem2⟩ :=
      json_save_state A2 L1 hokL1 (by rw [hidq]; exact Nat.le_of_eq hcnt1)
    rw [hidq] at hcnt2 hmem2
    refine ⟨hs1, ?_, ?_, ?_⟩
    · rw [hL1]
      exact hs2
    · rw [hL1, hL2]
      exact hcnt2
    · rw [hL1, hL2]
      exact hmem2
  · obtain ⟨hs1, L1, hL1, hcnt1, hmem1⟩ := xml_save_state A xs hxcount
    obtain ⟨hs2, L2, hL2, hcnt2, hmem2⟩ :=
      xml_save_state A2 L1 (by rw [hidq]; exact Nat.le_of_eq hcnt1)
    rw [hidq] at hcnt2 hmem2
    refine ⟨hs1, ?_, ?_, ?_⟩
    · rw [hL1]
      exact hs2
    · rw [hL1, hL2]
      exact hcnt2
    · rw [hL1, hL2]
      exact hmem2

/-- Witness for C4 at two concrete tasks sharing an id, over empty
storages. -/
theorem save_upsert_witness :
    sampleTask2.id = sampleTask.id ∧ StorageOK [] ∧
    countMatching (uuidStr sampleTask.id) [] ≤ 1 ∧
    countElemMatching (uuidStr sampleTask.id) [] ≤ 1 ∧
    (((JSONTodoRepository.save sampleTask (JsonContent.list [])).2 = none ∧
      (JSONTodoRepository.save sampleTask2
        (JSONTodoRepository.save sampleTask (JsonContent.list [])).1).2 = none ∧
      countMatching (uuidStr sampleTask.id)
        ((JSONTodoRepository.save sampleTask2
          (JSONTodoRepository.save sampleTask (JsonContent.list [])).1).1).records = 1 ∧
      ∀ r ∈ ((JSONTodoRepository.save sampleTask2
          (JSONTodoRepository.save sampleTask (JsonContent.list [])).1).1).records,
        r.id = some (uuidStr sampleTask.id) →
          r = JSONTodoRepository._todo_to_dict sampleTask2) ∧
    ((XMLTodoRepository.save sampleTask (XmlContent.doc [])).2 = none ∧
      (XMLTodoRepository.save sampleTask2
        (XMLTodoRepository.save sampleTask (XmlContent.doc [])).1).2 = none ∧
      countElemMatching (uuidStr sampleTask.id)
        ((XMLTodoRepository.save sampleTask2
          (XMLTodoRepository.save sampleTask (XmlContent.doc [])).1).1).todos = 1 ∧
      ∀ e ∈ ((XMLTodoRepository.save sampleTask2
          (XMLTodoRepository.save sampleTask (XmlContent.doc [])).1).1).todos,
        e.id = some (uuidStr sampleTask.id) →
          e = collapseElem (XMLTodoRepository._todo_to_xml_element sampleTask2))) :=
  ⟨rfl, rfl, by decide, by decide,
    save_upsert sampleTask sampleTask2 rfl [] rfl (by decide) [] (by decide)⟩

/-- C9: when the XML `save` or `update` replaces an existing record, the
new `<todo>` element occupies the replaced element's position in the
root's child order, and every other element (content and document
position) is unchanged. -/
theorem xml_replace_preserves_positions (t : TodoItem) (xs : List TodoElem) (i : Nat)
    (hp : ParsedOK xs)
    (hidx : XMLTodoRepository.findElemIdx (uuidStr t.id) xs = some i) :
    XMLTodoRepository.save t (XmlContent.doc xs) =
      (XmlContent.doc
        (xs.set i (collapseElem (XMLTodoRepository._todo_to_xml_element t))), none) ∧
    XMLTodoRepository.update t (XmlContent.doc xs) =
      (XmlContent.doc
        (xs.set i (collapseElem (XMLTodoRepository._todo_to_xml_element t))), none) ∧
    (xs.set i (collapseElem (XMLTodoRepository._todo_to_xml_element t))).length =
      xs.length ∧
    ∀ j, j ≠ i →
      (xs.set i (collapseElem (XMLTodoRepository._todo_to_xml_element t)))[j]? =
        xs[j]? := by
  have hmap : (xs.set i (XMLTodoRepository._todo_to_xml_element t)).map collapseElem =
      xs.set i (collapseElem (XMLTodoRepository._todo_to_xml_element t)) := by
    rw [List.map_set, hp]
  refine ⟨?_, ?_, List.length_set xs i _, ?_⟩
  · rw [xml_save_eq t xs, hidx]
    dsimp only
    rw [hmap]
  · unfold XMLTodoRepository.update XMLTodoRepository._load_xml_tree
      XMLTodoRepository._save_xml_tree
    dsimp only
    rw [hidx]
    dsimp only
    rw [hmap]
  · intro j hj
    exact List.getElem?_set_ne (fun he => hj he.symm)

/-- Witness for C9 at a one-element document. -/
theorem xml_replace_preserves_positions_witness :
    ParsedOK [collapseElem (XMLTodoRepository._todo_to_xml_element sampleTask)] ∧
    XMLTodoRepository.findElemIdx (uuidStr sampleTask.id)
      [collapseElem (XMLTodoRepository._todo_to_xml_element sampleTask)] = some 0 ∧
    (XMLTodoRepository.save sampleTask
      (XmlContent.doc
        [collapseElem (XMLTodoRepository._todo_to_xml_element sampleTask)]) =
      (XmlContent.doc
        ([collapseElem (XMLTodoRepository._todo_to_xml_element sampleTask)].set 0
          (collapseElem (XMLTodoRepository._todo_to_xml_element sampleTask))), none) ∧
    XMLTodoRepository.update sampleTask
      (XmlContent.doc
        [collapseElem (XMLTodoRepository._todo_to_xml_element sampleTask)]) =
      (XmlContent.doc
        ([collapseElem (XMLTodoRepository._todo_to_xml_element sampleTask)].set 0
          (collapseElem (XMLTodoRepository._todo_to_xml_element sampleTask))), none) ∧
    ([collapseElem (XMLTodoRepository._todo_to_xml_element sampleTask)].set 0
      (collapseElem (XMLTodoRepository._todo_to_xml_element sampleTask))).length =
      [collapseElem (XMLTodoRepository._todo_to_xml_element sampleTask)].length ∧
    ∀ j, j ≠ 0 →
      ([collapseElem (XMLTodoRepository._todo_to_xml_element sampleTask)].set 0
        (collapseElem (XMLTodoRepository._todo_to_xml_element sampleTask)))[j]? =
        [collapseElem (XMLTodoRepository._todo_to_xml_element sampleTask)][j]?) :=
  ⟨by unfold ParsedOK; decide, by decide,
    xml_replace_preserves_positions sampleTask
      [collapseElem (XMLTodoRepository._todo_to_xml_element sampleTask)] 0
      (by unfold ParsedOK; decide) (by decide)⟩

/-- Witness for C10: the completed text `"yes"` at a concrete task. -/
theorem xml_unrecognized_completed_is_false_witness :
    WellFormed 0 sampleTask ∧ ("yes" : String) ≠ "" ∧ pyLower "yes" ≠ "true" ∧
    (XMLTodoRepository.find_by_id 0 sampleTask.id
        (XmlContent.doc
          [{ id := some (uuidStr sampleTask.id), title := some sampleTask.title,
             completed := some "yes",
             created_at := some (isoformat sampleTask.created_at),
             updated_at := some (isoformat sampleTask.updated_at),
             description := sampleTask.description,
             due_date := sampleTask.due_date.map isoformat }]) =
        Except.ok (some { sampleTask with completed := false }) ∧
      XMLTodoRepository.find_all 0
        (XmlContent.doc
          [{ id := some (uuidStr sampleTask.id), title := some sampleTask.title,
             completed := some "yes",
             created_at := some (isoformat sampleTask.created_at),
             updated_at := some (isoformat sampleTask.updated_at),
             description := sampleTask.description,
             due_date := sampleTask.due_date.map isoformat }]) =
        Except.ok [{ sampleTask with completed := false }]) :=
  ⟨by unfold WellFormed; decide, by decide, by decide,
    xml_unrecognized_completed_is_false 0 sampleTask "yes"
      (by unfold WellFormed; decide) (by decide) (by decide)⟩

end TodoApp
